import Mathlib

/-!
Shallow embedding of the ShuVastra e-commerce backend core:
the cart-to-order transactional pipeline (src/controllers/orderController.js,
src/models/Order.js, src/models/Product.js, src/models/Cart.js) and the
OTP issuance/verification state machine (src/utils/otpHelper.js,
src/controllers/userAuthController.js, src/controllers/adminAuthController.js).

Modelling conventions:
* JavaScript numbers holding money are modelled as rationals; stock counts as
  integers; quantities as naturals (the cart schema enforces quantity >= 1).
* `Math.round(x * 100) / 100` (round half toward positive infinity) is
  `round2`; `a || b` on numbers is `jsOr` with 0 standing for every falsy
  numeric value (0, undefined, NaN).
* MongoDB collections become association lists; `findOne` is first match,
  `save` replaces the first matching record, `deleteMany` removes all matches.
* A mongoose transaction is modelled by computing the new state and returning
  the ORIGINAL state on any failure (abortTransaction); an unexpected
  persistence failure is modelled by the `persistOk` oracle argument.
* argon2 hashing is abstracted to exact equality of the stored and submitted
  codes (a collision-free one-way hash, which no claim here distinguishes
  from equality).
-/

namespace ShuVastra

/-- `Math.round(x * 100) / 100` on rationals. JavaScript `Math.round` rounds
half toward positive infinity, which is the floor of `x + 1/2`. -/
def round2 (x : ℚ) : ℚ := ((x * 100 + 1/2).floor : ℚ) / 100

/-- JavaScript numeric `a || b`: `a` when truthy (nonzero), else `b`. This
model encodes the falsy values 0, undefined and NaN all as 0. -/
def jsOr (a b : ℚ) : ℚ := if a = 0 then b else a

/-! ## Catalog data model (src/models/Product.js, variant version) -/

/-- One entry of `ProductSchema.variants` (VariantSchema): per-variant stock
and optional price override (0 encodes an absent override). -/
structure Variant where
  vid : Nat
  size : String := ""
  color : String := ""
  stock : Int := 0
  price : ℚ := 0
  deriving Repr, DecidableEq

/-- A catalog product: base price, percentage discount, derived finalPrice,
aggregate stock and the variant list. -/
structure Product where
  name : String
  price : ℚ := 0
  discount : ℚ := 0
  finalPrice : ℚ := 0
  stock : Int := 0
  variants : List Variant := []
  deriving Repr, DecidableEq

/-- `Product.findById` over the products collection (first match). -/
def findProduct : List (Nat × Product) → Nat → Option Product
  | [], _ => none
  | e :: rest, pid => if e.1 = pid then some e.2 else findProduct rest pid

/-- Persisting a product document: every entry with this id is replaced. -/
def setProduct : List (Nat × Product) → Nat → Product → List (Nat × Product)
  | [], _, _ => []
  | e :: rest, pid, p =>
    (if e.1 = pid then (e.1, p) else e) :: setProduct rest pid p

/-- `product.variants.id(variantId)`. -/
def variantById : List Variant → Nat → Option Variant
  | [], _ => none
  | v :: rest, vid => if v.vid = vid then some v else variantById rest vid

/-- In-place update of one variant subdocument. -/
def setVariant : List Variant → Nat → Variant → List Variant
  | [], _, _ => []
  | w :: rest, vid, v => (if w.vid = vid then v else w) :: setVariant rest vid v

/-! ## Cart and order data model (src/models/Cart.js, src/models/Order.js) -/

/-- One CartItemSchema line: product reference, optional variant reference,
quantity and snapshotted price. -/
structure CartLine where
  productId : Nat
  variantId : Option Nat := none
  quantity : Nat := 1
  price : ℚ := 0
  deriving Repr, DecidableEq

/-- One OrderItemSchema snapshot line frozen into an order. -/
structure OrderLine where
  product : Nat
  productName : String
  variantId : Option Nat
  quantity : Nat
  price : ℚ
  lineTotal : ℚ
  deriving Repr, DecidableEq

/-- OrderSchema.status enumeration. -/
inductive OrderStatus where
  | pending
  | confirmed
  | processing
  | shipped
  | out_for_delivery
  | delivered
  | cancelled
  | refunded
  deriving Repr, DecidableEq

/-- An order document: user, snapshot lines, monetary summary, status. -/
structure OrderRec where
  user : Nat
  items : List OrderLine
  subTotal : ℚ := 0
  tax : ℚ := 0
  shipping : ℚ := 0
  discount : ℚ := 0
  total : ℚ := 0
  status : OrderStatus := .pending
  deriving Repr, DecidableEq

/-- `OrderSchema.methods.computeTotals` (src/models/Order.js):
subTotal = sum of line totals; tax defaults to 5 percent of subTotal when
falsy; shipping defaults to a flat 50 waived above 2000 when falsy;
total = round2(subTotal + tax + shipping - discount). -/
def computeTotals (o : OrderRec) : OrderRec :=
  let subTotal := o.items.foldl (fun s it => s + it.lineTotal) 0
  let tax := if o.tax = 0 then round2 (subTotal * (5/100)) else o.tax
  let shipping :=
    if o.shipping = 0 then (if subTotal > 2000 then 0 else 50) else o.shipping
  let total := round2 (subTotal + tax + shipping - o.discount)
  { o with subTotal := subTotal, tax := tax, shipping := shipping, total := total }

/-- The persistent store the pipeline touches: products, per-user carts,
orders keyed by generated id. -/
structure StoreState where
  products : List (Nat × Product)
  carts : List (Nat × List CartLine)
  orders : List (Nat × OrderRec)
  nextOrderId : Nat := 0
  deriving Repr, DecidableEq

/-- `Cart.findOne({user})`. -/
def lookupCart : List (Nat × List CartLine) → Nat → Option (List CartLine)
  | [], _ => none
  | e :: rest, uid => if e.1 = uid then some e.2 else lookupCart rest uid

/-- Persisting a user's cart document. -/
def setCart : List (Nat × List CartLine) → Nat → List CartLine →
    List (Nat × List CartLine)
  | [], _, _ => []
  | e :: rest, uid, c =>
    (if e.1 = uid then (e.1, c) else e) :: setCart rest uid c

/-- `Order.findById`. -/
def lookupOrder : List (Nat × OrderRec) → Nat → Option OrderRec
  | [], _ => none
  | e :: rest, oid => if e.1 = oid then some e.2 else lookupOrder rest oid

/-- Persisting an order document. -/
def setOrder : List (Nat × OrderRec) → Nat → OrderRec → List (Nat × OrderRec)
  | [], _, _ => []
  | e :: rest, oid, o =>
    (if e.1 = oid then (e.1, o) else e) :: setOrder rest oid o

/-- Error taxonomy of the order pipeline (the distinct HTTP error responses
of placeOrder and cancelOrder in src/controllers/orderController.js). -/
inductive OrderError where
  | emptyCart
  | productNotFound (pid : Nat)
  | variantNotFound (pid : Nat)
  | insufficientStock (productName : String) (requested : Nat) (available : Int)
  | orderNotFound
  | notAuthorized
  | cannotCancelAtStage
  | serverError
  deriving Repr, DecidableEq

/-! ## placeOrder (src/controllers/orderController.js lines 38-184) -/

/-- The price-resolution chain of placeOrder before the variant override:
`Number(it.price) || Number(product.finalPrice) || Number(product.price) || 0`. -/
def baseSnapshotPrice (product : Product) (it : CartLine) : ℚ :=
  jsOr it.price (jsOr product.finalPrice (jsOr product.price 0))

/-- Resolution of one cart line against the current catalog, as in the
validation loop of placeOrder: yields the product document, the current
stock checked for the line (variant stock when the line has a variant,
product stock otherwise) and the resolved unit price
(`Number(variant.price) || snapshotPrice` for variant lines). -/
def lineView (ps : List (Nat × Product)) (it : CartLine) :
    Except OrderError (Product × Int × ℚ) :=
  match findProduct ps it.productId with
  | none => .error (.productNotFound it.productId)
  | some product =>
    match it.variantId with
    | none => .ok (product, product.stock, baseSnapshotPrice product it)
    | some vid =>
      match variantById product.variants vid with
      | none => .error (.variantNotFound it.productId)
      | some variant =>
        .ok (product, variant.stock, jsOr variant.price (baseSnapshotPrice product it))

/-- The first loop of placeOrder: validate each cart line against the live
catalog and build the order line snapshots. Fails with the first
ProductNotFound / VariantNotFound / InsufficientStock encountered. -/
def buildOrderItems (ps : List (Nat × Product)) :
    List CartLine → Except OrderError (List OrderLine)
  | [] => .ok []
  | it :: rest =>
    match lineView ps it with
    | .error e => .error e
    | .ok (product, currentStock, snapshotPrice) =>
      if (it.quantity : Int) > currentStock then
        .error (.insufficientStock product.name it.quantity currentStock)
      else
        match buildOrderItems ps rest with
        | .error e => .error e
        | .ok tail =>
          .ok ({ product := it.productId
                 productName := product.name
                 variantId := it.variantId
                 quantity := it.quantity
                 price := snapshotPrice
                 lineTotal := round2 (snapshotPrice * (it.quantity : ℚ)) } :: tail)

/-- One step of the second loop of placeOrder ("Deduct stock now"):
`variant.stock = Math.max(0, variant.stock - it.quantity)` for variant lines,
then always `product.stock = Math.max(0, product.stock - it.quantity)`.
`none` models the thrown TypeError (and transaction abort) were the product
or variant missing at this point. -/
def deductLine (ps : List (Nat × Product)) (it : CartLine) :
    Option (List (Nat × Product)) :=
  match findProduct ps it.productId with
  | none => none
  | some product =>
    match it.variantId with
    | none =>
      some (setProduct ps it.productId
        { product with stock := max 0 (product.stock - (it.quantity : Int)) })
    | some vid =>
      match variantById product.variants vid with
      | none => none
      | some variant =>
        let product1 := { product with
          variants := setVariant product.variants vid
            { variant with stock := max 0 (variant.stock - (it.quantity : Int)) } }
        some (setProduct ps it.productId
          { product1 with stock := max 0 (product1.stock - (it.quantity : Int)) })

/-- The whole stock-deduction loop of placeOrder. -/
def deductAll (ps : List (Nat × Product)) :
    List CartLine → Option (List (Nat × Product))
  | [] => some ps
  | it :: rest =>
    match deductLine ps it with
    | none => none
    | some ps1 => deductAll ps1 rest

/-- `placeOrder` (src/controllers/orderController.js lines 38-184), as one
mongoose transaction: load the cart (empty -> EmptyCart), validate every
line and build snapshots, deduct stock, build the order with computeTotals,
persist the order and clear the cart. Any failure aborts the transaction,
returning the original state; `persistOk = false` is the oracle for an
unexpected persistence error during commit. -/
def placeOrder (σ : StoreState) (uid : Nat) (persistOk : Bool) :
    Except OrderError OrderRec × StoreState :=
  match lookupCart σ.carts uid with
  | none => (.error .emptyCart, σ)
  | some cartItems =>
    if cartItems.isEmpty then (.error .emptyCart, σ)
    else
      match buildOrderItems σ.products cartItems with
      | .error e => (.error e, σ)
      | .ok orderItems =>
        match deductAll σ.products cartItems with
        | none => (.error .serverError, σ)
        | some products1 =>
          let order := computeTotals
            { user := uid, items := orderItems, status := .pending }
          if persistOk then
            (.ok order,
              { products := products1
                carts := setCart σ.carts uid []
                orders := σ.orders ++ [(σ.nextOrderId, order)]
                nextOrderId := σ.nextOrderId + 1 })
          else
            (.error .serverError, σ)

/-! ## cancelOrder (src/controllers/orderController.js lines 286-345) -/

/-- One step of the stock-restoration loop of cancelOrder: a missing product
is skipped (`if (!product) continue`); a missing variant skips only the
variant-level restore; `variant.stock += quantity` then
`product.stock += quantity`. -/
def restoreLine (ps : List (Nat × Product)) (it : OrderLine) :
    List (Nat × Product) :=
  match findProduct ps it.product with
  | none => ps
  | some product =>
    let product1 :=
      match it.variantId with
      | none => product
      | some vid =>
        match variantById product.variants vid with
        | none => product
        | some variant =>
          { product with
            variants := setVariant product.variants vid
              { variant with stock := variant.stock + (it.quantity : Int) } }
    setProduct ps it.product
      { product1 with stock := product1.stock + (it.quantity : Int) }

/-- The statuses from which cancellation is rejected. -/
def cancelBlockedStatuses : List OrderStatus :=
  [.shipped, .out_for_delivery, .delivered, .refunded]

/-- `cancelOrder` (src/controllers/orderController.js lines 286-345):
load the order; the actor must be an admin or the order's owner; reject the
shipped / out_for_delivery / delivered / refunded stages; otherwise restore
stock for every line, set status to cancelled and persist, all in one
transaction. -/
def cancelOrder (σ : StoreState) (actorId : Nat) (actorIsAdmin : Bool)
    (oid : Nat) : Except OrderError OrderRec × StoreState :=
  match lookupOrder σ.orders oid with
  | none => (.error .orderNotFound, σ)
  | some order =>
    if ¬actorIsAdmin ∧ order.user ≠ actorId then
      (.error .notAuthorized, σ)
    else if order.status ∈ cancelBlockedStatuses then
      (.error .cannotCancelAtStage, σ)
    else
      let products1 := order.items.foldl restoreLine σ.products
      let order1 := { order with status := OrderStatus.cancelled }
      (.ok order1,
        { σ with products := products1, orders := setOrder σ.orders oid order1 })

/-! ## OTP state machine (src/models/Otp.js, src/utils/otpHelper.js,
src/controllers/userAuthController.js, src/controllers/adminAuthController.js) -/

/-- One Otp document: hashed code (abstracted to the code itself), failed
attempt counter, resend counter and TTL expiry timestamp (milliseconds). -/
structure OtpRec where
  hashedOtp : String
  attempts : Nat := 0
  resendCount : Nat := 0
  expiresAt : Int := 0
  deriving Repr, DecidableEq

/-- The Otp collection, keyed by (targetEmail, purpose). -/
abbrev OtpStore := List ((String × String) × OtpRec)

def MAX_ATTEMPTS : Nat := 5
def MAX_RESENDS : Nat := 5

/-- Code lifetime: `Date.now() + 5 * 60 * 1000`. -/
def OTP_LIFETIME_MS : Int := 5 * 60 * 1000

/-- `Otp.findOne({targetEmail, purpose})` (first match). -/
def findOtp : OtpStore → String → String → Option OtpRec
  | [], _, _ => none
  | e :: rest, email, purpose =>
    if e.1 = (email, purpose) then some e.2 else findOtp rest email purpose

/-- `otpDoc.save()`: replace the first record with this key. -/
def saveOtp : OtpStore → String → String → OtpRec → OtpStore
  | [], _, _, _ => []
  | e :: rest, email, purpose, d =>
    if e.1 = (email, purpose) then ((email, purpose), d) :: rest
    else e :: saveOtp rest email purpose d

/-- `Otp.deleteOne({_id: otpDoc._id})`: remove the first record with this key
(the one findOne returned). -/
def deleteOneOtp : OtpStore → String → String → OtpStore
  | [], _, _ => []
  | e :: rest, email, purpose =>
    if e.1 = (email, purpose) then rest
    else e :: deleteOneOtp rest email purpose

/-- `Otp.deleteMany({targetEmail, purpose})`. -/
def deleteManyOtp : OtpStore → String → String → OtpStore
  | [], _, _ => []
  | e :: rest, email, purpose =>
    if e.1 = (email, purpose) then deleteManyOtp rest email purpose
    else e :: deleteManyOtp rest email purpose

/-- `Otp.create(...)`. -/
def insertOtp (s : OtpStore) (email purpose : String) (d : OtpRec) : OtpStore :=
  ((email, purpose), d) :: s

/-- Result shape of `verifyOtpHelper`. -/
structure VerifyResult where
  valid : Bool
  attemptsLeft : Nat
  blocked : Bool
  deriving Repr, DecidableEq

/-- `verifyOtpHelper` (src/utils/otpHelper.js lines 73-95): no record ->
invalid, not blocked; hash mismatch -> attempts incremented and saved, then
blocked with deletion when attempts reach MAX_ATTEMPTS, else invalid with
attempts remaining; hash match -> all records for the key deleted and valid.
The stored expiry timestamp is never consulted. -/
def verifyOtpHelper (s : OtpStore) (email purpose otp : String) :
    VerifyResult × OtpStore :=
  match findOtp s email purpose with
  | none => ({ valid := false, attemptsLeft := 0, blocked := false }, s)
  | some doc =>
    if doc.hashedOtp = otp then
      ({ valid := true, attemptsLeft := MAX_ATTEMPTS, blocked := false },
        deleteManyOtp s email purpose)
    else
      let doc1 := { doc with attempts := doc.attempts + 1 }
      let s1 := saveOtp s email purpose doc1
      if doc1.attempts ≥ MAX_ATTEMPTS then
        ({ valid := false, attemptsLeft := 0, blocked := true },
          deleteOneOtp s1 email purpose)
      else
        ({ valid := false, attemptsLeft := MAX_ATTEMPTS - doc1.attempts,
           blocked := false }, s1)

/-- Result shape of `createOrResendOtp`; `otp = none` means no new code was
generated or stored. -/
structure CreateResult where
  blocked : Bool
  attemptsLeft : Nat
  resendsLeft : Nat
  otp : Option String
  deriving Repr, DecidableEq

/-- `createOrResendOtp` (src/utils/otpHelper.js lines 14-68): an existing
record with attempts >= MAX_ATTEMPTS, or resendCount >= MAX_RESENDS, is
deleted and the call reports blocked without storing a new code; otherwise
the record is refreshed in place (new code, expiry reset, resendCount
incremented) or created. `newOtp` stands for the freshly generated random
code, `now` for `Date.now()`. -/
def createOrResendOtp (s : OtpStore) (email purpose newOtp : String)
    (now : Int) : CreateResult × OtpStore :=
  match findOtp s email purpose with
  | some doc =>
    if doc.attempts ≥ MAX_ATTEMPTS then
      ({ blocked := true, attemptsLeft := 0, resendsLeft := 0, otp := none },
        deleteOneOtp s email purpose)
    else if doc.resendCount ≥ MAX_RESENDS then
      ({ blocked := true, attemptsLeft := MAX_ATTEMPTS, resendsLeft := 0,
         otp := none }, deleteOneOtp s email purpose)
    else
      let doc1 := { doc with
        hashedOtp := newOtp
        expiresAt := now + OTP_LIFETIME_MS
        resendCount := doc.resendCount + 1 }
      ({ blocked := false, attemptsLeft := MAX_ATTEMPTS - doc1.attempts,
         resendsLeft := MAX_RESENDS - doc1.resendCount, otp := some newOtp },
        saveOtp s email purpose doc1)
  | none =>
    let doc1 : OtpRec := { hashedOtp := newOtp, expiresAt := now + OTP_LIFETIME_MS }
    ({ blocked := false, attemptsLeft := MAX_ATTEMPTS,
       resendsLeft := MAX_RESENDS, otp := some newOtp },
      insertOtp s email purpose doc1)

/-- Responses of the user-registration OTP verify endpoint. -/
inductive UserVerifyResp where
  | userNotFound
  | otpNotFound
  | invalidOtp
  | verified
  deriving Repr, DecidableEq

/-- `verifyOtp` of src/controllers/userAuthController.js (lines 109-137),
purpose fixed to "register". On mismatch the attempt counter is incremented
and saved, but the controller never deletes the record nor reports blocked,
whatever the attempt count; on match all records for the key are deleted.
The expiry timestamp is never consulted. `userExists` models the outcome of
the `User.findOne` guard. -/
def userVerifyOtp (s : OtpStore) (userExists : Bool) (email otp : String) :
    UserVerifyResp × OtpStore :=
  if ¬userExists then (.userNotFound, s)
  else
    match findOtp s email "register" with
    | none => (.otpNotFound, s)
    | some doc =>
      if doc.hashedOtp = otp then
        (.verified, deleteManyOtp s email "register")
      else
        (.invalidOtp, saveOtp s email "register"
          { doc with attempts := doc.attempts + 1 })

/-- Responses of the user-registration OTP resend endpoint. -/
inductive UserResendResp where
  | userNotFound
  | alreadyVerified
  | resent
  deriving Repr, DecidableEq

/-- `resendOtp` of src/controllers/userAuthController.js (lines 142-170):
deletes every record for (email, "register") and unconditionally creates a
fresh one; there is no attempts or resends gate and no blocked outcome.
`userExists` and `userVerified` model the `User.findOne` guards. -/
def userResendOtp (s : OtpStore) (userExists userVerified : Bool)
    (email newOtp : String) (now : Int) : UserResendResp × OtpStore :=
  if ¬userExists then (.userNotFound, s)
  else if userVerified then (.alreadyVerified, s)
  else
    (.resent, insertOtp (deleteManyOtp s email "register") email "register"
      { hashedOtp := newOtp, expiresAt := now + OTP_LIFETIME_MS })

/-! ## Observation helpers used to state the properties -/

/-- The current stock a cart line is checked against in placeOrder:
variant stock when the line has a variant, product stock otherwise. -/
def lineStock (ps : List (Nat × Product)) (it : CartLine) : Option Int :=
  match findProduct ps it.productId with
  | none => none
  | some product =>
    match it.variantId with
    | none => some product.stock
    | some vid => (variantById product.variants vid).map (fun v => v.stock)

/-- Aggregate product-level stock, observed through findById. -/
def productStockOf (ps : List (Nat × Product)) (pid : Nat) : Option Int :=
  (findProduct ps pid).map (fun p => p.stock)

/-- Variant-level stock, observed through findById and variants.id. -/
def variantStockOf (ps : List (Nat × Product)) (pid vid : Nat) : Option Int :=
  match findProduct ps pid with
  | none => none
  | some p => (variantById p.variants vid).map (fun v => v.stock)

/-- Two cart lines whose stock decrements cannot interfere: they reference
different products, or are variant lines on different variants. -/
def Indep (a b : CartLine) : Prop :=
  a.productId ≠ b.productId ∨
    (∃ va vb, a.variantId = some va ∧ b.variantId = some vb ∧ va ≠ vb)

/-- A cart line passes the stock validation of placeOrder's first loop. -/
def validatesOk (ps : List (Nat × Product)) (it : CartLine) : Prop :=
  ∃ st, lineStock ps it = some st ∧ (it.quantity : Int) ≤ st

/-- Every product-level and variant-level stock in the catalog is
nonnegative. -/
def catalogNonneg (ps : List (Nat × Product)) : Prop :=
  ∀ e ∈ ps, 0 ≤ e.2.stock ∧ ∀ v ∈ e.2.variants, 0 ≤ v.stock

/-- Number of Otp records stored under a key. -/
def countOtp : OtpStore → String → String → Nat
  | [], _, _ => 0
  | e :: rest, email, purpose =>
    (if e.1 = (email, purpose) then 1 else 0) + countOtp rest email purpose

/-- Rewrite every stored expiry timestamp; used to state that verification
never consults expiresAt. -/
def retimeOtp (s : OtpStore) (t : Int) : OtpStore :=
  s.map (fun e => (e.1, { e.2 with expiresAt := t }))

/-! ## Concrete states for scenario checks, counterexamples and witnesses -/

/-- The spec's scenario product: price 100, stock 5, no variants. -/
def demoProduct : Product :=
  { name := "alpha", price := 100, finalPrice := 100, stock := 5 }

/-- The spec's scenario: one cart line of quantity 2 at snapshot price 100. -/
def demoState : StoreState :=
  { products := [(1, demoProduct)]
    carts := [(1, [{ productId := 1, variantId := none, quantity := 2, price := 100 }])]
    orders := []
    nextOrderId := 0 }

/-- A product with aggregate stock 5 and one variant of stock 3. -/
def cex3Product : Product :=
  { name := "alpha", price := 10, finalPrice := 10, stock := 5
    variants := [{ vid := 1, size := "M", stock := 3, price := 10 }] }

/-- A cart holding a plain line and a variant line of the same product:
the plain line is validated against aggregate stock 5, but the variant
line's deduction also drains the aggregate stock. -/
def cex3State : StoreState :=
  { products := [(1, cex3Product)]
    carts := [(1,
      [{ productId := 1, variantId := none, quantity := 2, price := 10 },
       { productId := 1, variantId := some 1, quantity := 1, price := 10 }])]
    orders := []
    nextOrderId := 0 }

/-- A product whose current catalog price (finalPrice 80) differs from the
cart's stored snapshot price 100. -/
def cex4Product : Product :=
  { name := "beta", price := 100, discount := 20, finalPrice := 80, stock := 5 }

def cex4State : StoreState :=
  { products := [(1, cex4Product)]
    carts := [(1, [{ productId := 1, variantId := none, quantity := 1, price := 100 }])]
    orders := []
    nextOrderId := 0 }

/-- A pending order whose only line references product 42, which has been
deleted from the catalog. -/
def cex5Order : OrderRec :=
  { user := 7
    items := [{ product := 42, productName := "ghost", variantId := none,
                quantity := 3, price := 10, lineTotal := 30 }]
    subTotal := 30, tax := 2, shipping := 50, total := 82
    status := .pending }

def cex5State : StoreState :=
  { products := []
    carts := []
    orders := [(1, cex5Order)]
    nextOrderId := 2 }

/-- A pending order for witness checks: owner 7, line of quantity 3 on
product 9 (stock 10) with variant 2 (stock 4). -/
def demoCancelProduct : Product :=
  { name := "gamma", price := 10, finalPrice := 10, stock := 10
    variants := [{ vid := 2, stock := 4, price := 10 }] }

def demoCancelOrder : OrderRec :=
  { user := 7
    items := [{ product := 9, productName := "gamma", variantId := some 2,
                quantity := 3, price := 10, lineTotal := 30 }]
    subTotal := 30, tax := 2, shipping := 50, total := 82
    status := .processing }

def demoCancelState : StoreState :=
  { products := [(9, demoCancelProduct)]
    carts := []
    orders := [(1, demoCancelOrder)]
    nextOrderId := 2 }

/-- A shipped order on the same catalog, for the terminal-state check. -/
def demoShippedState : StoreState :=
  { products := [(9, demoCancelProduct)]
    carts := []
    orders := [(1, { demoCancelOrder with status := .shipped })]
    nextOrderId := 2 }

/-- A register OTP record at 4 failed attempts: one more wrong code reaches
MAX_ATTEMPTS. -/
def cex6Store : OtpStore :=
  [(("u@x.com", "register"),
    { hashedOtp := "111111", attempts := 4, expiresAt := 1000 })]

/-- A register OTP record already at MAX_ATTEMPTS. -/
def cex7Store : OtpStore :=
  [(("u@x.com", "register"),
    { hashedOtp := "111111", attempts := 5, expiresAt := 1000 })]

/-- A login OTP record whose expiresAt = 0 lies in the past of any positive
current time. -/
def cex8Store : OtpStore :=
  [(("a@b.com", "login"),
    { hashedOtp := "123456", attempts := 0, expiresAt := 0 })]

/-- A fresh login OTP record, for the verification witness. -/
def demoOtpStore : OtpStore :=
  [(("a@b.com", "login"),
    { hashedOtp := "123456", attempts := 0, expiresAt := 1000 })]

/-- Contention setup of the spec's oversell scenario: one product with one
variant of stock `s`, two users whose carts each request the same variant. -/
def contentionProduct (s : Int) : Product :=
  { name := "tee", price := 10, finalPrice := 10, stock := s
    variants := [{ vid := 1, stock := s, price := 10 }] }

def contentionState (s : Int) (q1 q2 : Nat) : StoreState :=
  { products := [(1, contentionProduct s)]
    carts := [(1, [{ productId := 1, variantId := some 1, quantity := q1, price := 10 }]),
              (2, [{ productId := 1, variantId := some 1, quantity := q2, price := 10 }])]
    orders := []
    nextOrderId := 0 }

/-- A variant line whose quantity q can exceed the aggregate product-level
stock `ps0` while the variant itself has stock `vs`. -/
def clampState (ps0 vs : Int) (q : Nat) : StoreState :=
  { products := [(1, { name := "vee", price := 10, finalPrice := 10, stock := ps0
                       variants := [{ vid := 1, stock := vs, price := 10 }] })]
    carts := [(1, [{ productId := 1, variantId := some 1, quantity := q, price := 10 }])]
    orders := []
    nextOrderId := 0 }

/-- First of the two serialized transactions of the oversell scenario. -/
def oversellFirst (s : Int) (q1 q2 : Nat) : Except OrderError OrderRec × StoreState :=
  placeOrder (contentionState s q1 q2) 1 true

/-- Second serialized transaction, running on the state the first committed. -/
def oversellSecond (s : Int) (q1 q2 : Nat) : Except OrderError OrderRec × StoreState :=
  placeOrder (oversellFirst s q1 q2).2 2 true

/-- demoState with the quantity raised above the available stock. -/
def demoOverState : StoreState :=
  { products := [(1, demoProduct)]
    carts := [(1, [{ productId := 1, variantId := none, quantity := 7, price := 100 }])]
    orders := []
    nextOrderId := 0 }

/-- The order placeOrder builds from demoState. -/
def demoPlacedOrder : OrderRec :=
  { user := 1
    items := [{ product := 1, productName := "alpha", variantId := none,
                quantity := 2, price := 100, lineTotal := 200 }]
    subTotal := 200, tax := 10, shipping := 50, discount := 0, total := 260
    status := .pending }

/-- The state placeOrder commits from demoState. -/
def demoPlacedState : StoreState :=
  { products := [(1, { name := "alpha", price := 100, finalPrice := 100, stock := 3 })]
    carts := [(1, [])]
    orders := [(0, demoPlacedOrder)]
    nextOrderId := 1 }

deriving instance DecidableEq for Except

/-! # Supporting lemmas -/

theorem findProduct_setProduct_self (ps : List (Nat × Product)) (pid : Nat)
    (p q : Product) (h : findProduct ps pid = some q) :
    findProduct (setProduct ps pid p) pid = some p := by
  induction ps with
  | nil => simp [findProduct] at h
  | cons e rest ih =>
    by_cases hk : e.1 = pid
    · simp [findProduct, setProduct, hk]
    · simp [findProduct, setProduct, hk] at h ⊢
      exact ih h

theorem findProduct_setProduct_ne (ps : List (Nat × Product)) (pid pid' : Nat)
    (p : Product) (h : pid' ≠ pid) :
    findProduct (setProduct ps pid p) pid' = findProduct ps pid' := by
  induction ps with
  | nil => simp [setProduct]
  | cons e rest ih =>
    by_cases hk : e.1 = pid
    · simp [findProduct, setProduct, hk, Ne.symm h]
      exact ih
    · simp [findProduct, setProduct, hk]
      by_cases h3 : e.1 = pid'
      · simp [h3]
      · simp [h3]
        exact ih

theorem variantById_setVariant_self (vs : List Variant) (vid : Nat)
    (v w : Variant) (hv : v.vid = vid) (h : variantById vs vid = some w) :
    variantById (setVariant vs vid v) vid = some v := by
  induction vs with
  | nil => simp [variantById] at h
  | cons u rest ih =>
    by_cases hk : u.vid = vid
    · simp [variantById, setVariant, hk, hv]
    · simp [variantById, setVariant, hk] at h ⊢
      exact ih h

theorem variantById_setVariant_ne (vs : List Variant) (vid vid' : Nat)
    (v : Variant) (hv : v.vid = vid) (h : vid' ≠ vid) :
    variantById (setVariant vs vid v) vid' = variantById vs vid' := by
  induction vs with
  | nil => simp [setVariant]
  | cons u rest ih =>
    by_cases hk : u.vid = vid
    · simp [variantById, setVariant, hk, hv, Ne.symm h]
      exact ih
    · simp [variantById, setVariant, hk]
      by_cases h3 : u.vid = vid'
      · simp [h3]
      · simp [h3]
        exact ih

theorem lookupCart_setCart_self (cs : List (Nat × List CartLine)) (uid : Nat)
    (c c0 : List CartLine) (h : lookupCart cs uid = some c0) :
    lookupCart (setCart cs uid c) uid = some c := by
  induction cs with
  | nil => simp [lookupCart] at h
  | cons e rest ih =>
    by_cases hk : e.1 = uid
    · simp [lookupCart, setCart, hk]
    · simp [lookupCart, setCart, hk] at h ⊢
      exact ih h

theorem lookupOrder_setOrder_self (os : List (Nat × OrderRec)) (oid : Nat)
    (o o0 : OrderRec) (h : lookupOrder os oid = some o0) :
    lookupOrder (setOrder os oid o) oid = some o := by
  induction os with
  | nil => simp [lookupOrder] at h
  | cons e rest ih =>
    by_cases hk : e.1 = oid
    · simp [lookupOrder, setOrder, hk]
    · simp [lookupOrder, setOrder, hk] at h ⊢
      exact ih h

theorem placeOrder_error_state (σ : StoreState) (uid : Nat) (ok : Bool)
    (e : OrderError) (σ' : StoreState)
    (h : placeOrder σ uid ok = (.error e, σ')) : σ' = σ := by
  unfold placeOrder at h
  repeat' split at h
  all_goals injection h with h1 h2
  all_goals first
    | exact h2.symm
    | exact absurd h1 (by simp)

theorem placeOrder_ok_inv (σ : StoreState) (uid : Nat) (ok : Bool)
    (o : OrderRec) (σ' : StoreState) (h : placeOrder σ uid ok = (.ok o, σ')) :
    ∃ lines items ps1,
      lookupCart σ.carts uid = some lines ∧
      lines.isEmpty = false ∧
      buildOrderItems σ.products lines = .ok items ∧
      deductAll σ.products lines = some ps1 ∧
      ok = true ∧
      o = computeTotals { user := uid, items := items, status := .pending } ∧
      σ' = { products := ps1
             carts := setCart σ.carts uid []
             orders := σ.orders ++ [(σ.nextOrderId, o)]
             nextOrderId := σ.nextOrderId + 1 } := by
  unfold placeOrder at h
  split at h
  · simp at h
  rename_i lines hc
  split at h
  · simp at h
  rename_i hne
  split at h
  · simp at h
  rename_i items hb
  split at h
  · simp at h
  rename_i ps1 hd
  split at h
  · rename_i hok
    simp only [Prod.mk.injEq, Except.ok.injEq] at h
    exact ⟨lines, items, ps1, hc, by simpa using hne, hb, hd, hok, h.1.symm,
      by rw [← h.2, ← h.1]⟩
  · simp at h

theorem foldl_lineTotal_sum (l : List OrderLine) (a : ℚ) :
    l.foldl (fun s it => s + it.lineTotal) a
      = a + (l.map (fun it => it.lineTotal)).sum := by
  induction l generalizing a with
  | nil => simp
  | cons x xs ih => simp [ih, add_assoc]

theorem variantById_vid (vs : List Variant) (vid : Nat) (v : Variant)
    (h : variantById vs vid = some v) : v.vid = vid := by
  induction vs with
  | nil => simp [variantById] at h
  | cons u rest ih =>
    by_cases hk : u.vid = vid
    · simp [variantById, hk] at h
      rw [← h]
      exact hk
    · simp [variantById, hk] at h
      exact ih h

theorem lineView_stock (ps : List (Nat × Product)) (it : CartLine)
    (p : Product) (st : Int) (pr : ℚ) (h : lineView ps it = .ok (p, st, pr)) :
    findProduct ps it.productId = some p ∧ lineStock ps it = some st := by
  unfold lineView at h
  split at h
  · simp at h
  rename_i product hp
  split at h
  · rename_i hv
    simp only [Except.ok.injEq, Prod.mk.injEq] at h
    obtain ⟨h1, h2, _⟩ := h
    subst h1 h2
    simp [lineStock, hp, hv]
  · rename_i vid hv
    split at h
    · simp at h
    rename_i variant hvv
    simp only [Except.ok.injEq, Prod.mk.injEq] at h
    obtain ⟨h1, h2, _⟩ := h
    subst h1 h2
    simp [lineStock, hp, hv, hvv]

theorem lineStock_lineView (ps : List (Nat × Product)) (it : CartLine)
    (st : Int) (h : lineStock ps it = some st) :
    ∃ p pr, lineView ps it = .ok (p, st, pr) ∧
      findProduct ps it.productId = some p := by
  unfold lineStock at h
  split at h
  · simp at h
  rename_i product hp
  split at h
  · rename_i hv
    injection h with h
    subst h
    exact ⟨product, baseSnapshotPrice product it,
      by simp [lineView, hp, hv], hp⟩
  · rename_i vid hv
    cases hvv : variantById product.variants vid with
    | none => rw [hvv] at h; simp at h
    | some variant =>
      rw [hvv] at h
      simp only [Option.map_some', Option.some.injEq] at h
      subst h
      exact ⟨product, jsOr variant.price (baseSnapshotPrice product it),
        by simp [lineView, hp, hv, hvv], hp⟩

theorem buildOrderItems_validates (ps : List (Nat × Product))
    (lines : List CartLine) (items : List OrderLine)
    (h : buildOrderItems ps lines = .ok items) :
    ∀ it ∈ lines, validatesOk ps it := by
  induction lines generalizing items with
  | nil => intro it hit; cases hit
  | cons l rest ih =>
    intro it hit
    unfold buildOrderItems at h
    split at h
    · simp at h
    rename_i product currentStock snapshotPrice hlv
    split at h
    · simp at h
    rename_i hq
    split at h
    · simp at h
    rename_i tail htail
    rcases List.mem_cons.mp hit with rfl | hit'
    · exact ⟨currentStock, (lineView_stock ps it product currentStock snapshotPrice hlv).2,
        by omega⟩
    · exact ih tail htail it hit'

theorem buildOrderItems_overdraw (ps : List (Nat × Product))
    (pre : List CartLine) (it : CartLine) (post : List CartLine)
    (hpre : ∀ l ∈ pre, validatesOk ps l)
    (p : Product) (hp : findProduct ps it.productId = some p)
    (st : Int) (hst : lineStock ps it = some st)
    (hover : (it.quantity : Int) > st) :
    buildOrderItems ps (pre ++ it :: post)
      = .error (.insufficientStock p.name it.quantity st) := by
  induction pre with
  | nil =>
    obtain ⟨p', pr, hlv, hp'⟩ := lineStock_lineView ps it st hst
    rw [hp] at hp'
    injection hp' with hp'
    subst hp'
    simp only [List.nil_append]
    unfold buildOrderItems
    rw [hlv]
    simp [hover]
  | cons l pre' ih =>
    obtain ⟨stl, hstl, hql⟩ := hpre l (List.mem_cons_self l pre')
    obtain ⟨pl, prl, hlvl, _⟩ := lineStock_lineView ps l stl hstl
    simp only [List.cons_append]
    unfold buildOrderItems
    rw [hlvl]
    dsimp only
    rw [if_neg (not_lt.mpr hql),
      ih (fun x hx => hpre x (List.mem_cons_of_mem l hx))]

theorem placeOrder_of_buildError (σ : StoreState) (uid : Nat) (ok : Bool)
    (lines : List CartLine) (e : OrderError)
    (hc : lookupCart σ.carts uid = some lines) (hne : lines ≠ [])
    (hb : buildOrderItems σ.products lines = .error e) :
    placeOrder σ uid ok = (.error e, σ) := by
  unfold placeOrder
  rw [hc]
  cases lines with
  | nil => exact absurd rfl hne
  | cons l rest =>
    simp only [List.isEmpty_cons, Bool.false_eq_true, if_false]
    rw [hb]

theorem lineStock_none (ps : List (Nat × Product)) (it : CartLine)
    (hv : it.variantId = none) :
    lineStock ps it = (findProduct ps it.productId).map (fun p => p.stock) := by
  cases hf : findProduct ps it.productId <;> simp [lineStock, hv, hf]

theorem lineStock_some (ps : List (Nat × Product)) (it : CartLine) (vid : Nat)
    (hv : it.variantId = some vid) :
    lineStock ps it = (findProduct ps it.productId).bind
      (fun p => (variantById p.variants vid).map (fun v => v.stock)) := by
  cases hf : findProduct ps it.productId <;> simp [lineStock, hv, hf]

theorem indep_symm (a b : CartLine) (h : Indep a b) : Indep b a := by
  rcases h with h | ⟨va, vb, ha, hb, hne⟩
  · exact Or.inl (Ne.symm h)
  · exact Or.inr ⟨vb, va, hb, ha, Ne.symm hne⟩

theorem deductLine_self (ps ps1 : List (Nat × Product)) (it : CartLine)
    (st : Int) (h : deductLine ps it = some ps1)
    (hst : lineStock ps it = some st) :
    lineStock ps1 it = some (max 0 (st - (it.quantity : Int))) := by
  unfold deductLine at h
  split at h
  · simp at h
  rename_i product hp
  split at h
  · rename_i hv
    injection h with h
    subst h
    rw [lineStock_none ps it hv, hp, Option.map_some', Option.some.injEq] at hst
    subst hst
    rw [lineStock_none _ it hv,
      findProduct_setProduct_self ps it.productId _ product hp]
    rfl
  · rename_i vid hv
    split at h
    · simp at h
    rename_i variant hvv
    injection h with h
    subst h
    rw [lineStock_some ps it vid hv, hp, Option.some_bind, hvv,
      Option.map_some', Option.some.injEq] at hst
    subst hst
    rw [lineStock_some _ it vid hv,
      findProduct_setProduct_self ps it.productId _ product hp,
      Option.some_bind,
      variantById_setVariant_self product.variants vid
        { variant with stock := max 0 (variant.stock - (it.quantity : Int)) }
        variant (variantById_vid product.variants vid variant hvv) hvv]
    rfl

theorem deductLine_preserve (ps ps1 : List (Nat × Product)) (l it : CartLine)
    (hind : Indep l it) (h : deductLine ps l = some ps1) :
    lineStock ps1 it = lineStock ps it := by
  unfold deductLine at h
  split at h
  · simp at h
  rename_i product hp
  by_cases hpid : l.productId = it.productId
  · rcases hind with hne | ⟨vl, vi, hl, hi, hvne⟩
    · exact absurd hpid hne
    · rw [hl] at h
      dsimp only at h
      split at h
      · simp at h
      rename_i variant hvv
      injection h with h
      subst h
      rw [lineStock_some _ it vi hi, lineStock_some ps it vi hi, ← hpid,
        findProduct_setProduct_self ps l.productId _ product hp, hp,
        Option.some_bind, Option.some_bind,
        variantById_setVariant_ne product.variants vl vi
          { variant with stock := max 0 (variant.stock - (l.quantity : Int)) }
          (variantById_vid product.variants vl variant hvv) (Ne.symm hvne)]
  · have hne : it.productId ≠ l.productId := fun hh => hpid hh.symm
    rcases hvcase : l.variantId with _ | vl
    · rw [hvcase] at h
      dsimp only at h
      injection h with h
      subst h
      cases hvi : it.variantId with
      | none =>
        rw [lineStock_none _ it hvi, lineStock_none ps it hvi,
          findProduct_setProduct_ne ps l.productId it.productId _ hne]
      | some vi =>
        rw [lineStock_some _ it vi hvi, lineStock_some ps it vi hvi,
          findProduct_setProduct_ne ps l.productId it.productId _ hne]
    · rw [hvcase] at h
      dsimp only at h
      split at h
      · simp at h
      rename_i variant hvv
      injection h with h
      subst h
      cases hvi : it.variantId with
      | none =>
        rw [lineStock_none _ it hvi, lineStock_none ps it hvi,
          findProduct_setProduct_ne ps l.productId it.productId _ hne]
      | some vi =>
        rw [lineStock_some _ it vi hvi, lineStock_some ps it vi hvi,
          findProduct_setProduct_ne ps l.productId it.productId _ hne]

theorem deductAll_preserve (lines : List CartLine) (it : CartLine)
    (hall : ∀ l ∈ lines, Indep l it) (ps ps1 : List (Nat × Product))
    (h : deductAll ps lines = some ps1) :
    lineStock ps1 it = lineStock ps it := by
  induction lines generalizing ps with
  | nil =>
    simp only [deductAll, Option.some.injEq] at h
    subst h
    rfl
  | cons l rest ih =>
    unfold deductAll at h
    split at h
    · simp at h
    rename_i ps0 hdl
    rw [ih (fun x hx => hall x (List.mem_cons_of_mem l hx)) ps0 h]
    exact deductLine_preserve ps ps0 l it (hall l (List.mem_cons_self l rest)) hdl

theorem deductAll_mem (lines : List CartLine) (it : CartLine)
    (hmem : it ∈ lines) (hpair : lines.Pairwise Indep)
    (ps ps1 : List (Nat × Product)) (h : deductAll ps lines = some ps1)
    (st : Int) (hst : lineStock ps it = some st)
    (hq : (it.quantity : Int) ≤ st) :
    lineStock ps1 it = some (st - (it.quantity : Int)) := by
  induction lines generalizing ps with
  | nil => cases hmem
  | cons l rest ih =>
    unfold deductAll at h
    split at h
    · simp at h
    rename_i ps0 hdl
    rcases List.mem_cons.mp hmem with rfl | hmem'
    · have hself := deductLine_self ps ps0 it st hdl hst
      have hmax : max 0 (st - (it.quantity : Int)) = st - (it.quantity : Int) := by
        omega
      rw [hmax] at hself
      have hind : ∀ x ∈ rest, Indep x it := fun x hx =>
        indep_symm it x ((List.pairwise_cons.mp hpair).1 x hx)
      rw [deductAll_preserve rest it hind ps0 ps1 h]
      exact hself
    · have hind : Indep l it := (List.pairwise_cons.mp hpair).1 it hmem'
      have hpres := deductLine_preserve ps ps0 l it hind hdl
      exact ih hmem' (List.pairwise_cons.mp hpair).2 ps0 h (hpres.symm ▸ hst)

theorem computeTotals_items (o : OrderRec) : (computeTotals o).items = o.items :=
  rfl

theorem variantStockOf_eq (ps : List (Nat × Product)) (pid vid : Nat) :
    variantStockOf ps pid vid = (findProduct ps pid).bind
      (fun p => (variantById p.variants vid).map (fun v => v.stock)) := by
  cases hf : findProduct ps pid <;> simp [variantStockOf, hf]

theorem restoreLine_not_found (ps : List (Nat × Product)) (it : OrderLine)
    (h : findProduct ps it.product = none) : restoreLine ps it = ps := by
  unfold restoreLine
  rw [h]

theorem restoreLine_preserve (ps : List (Nat × Product)) (a : OrderLine)
    (pid : Nat) (hne : a.product ≠ pid) :
    findProduct (restoreLine ps a) pid = findProduct ps pid := by
  unfold restoreLine
  split
  · rfl
  exact findProduct_setProduct_ne ps a.product pid _ (fun hh => hne hh.symm)

theorem restoreAll_preserve (items : List OrderLine) (pid : Nat)
    (hall : ∀ a ∈ items, a.product ≠ pid) (ps : List (Nat × Product)) :
    findProduct (items.foldl restoreLine ps) pid = findProduct ps pid := by
  induction items generalizing ps with
  | nil => rfl
  | cons a rest ih =>
    rw [List.foldl_cons,
      ih (fun x hx => hall x (List.mem_cons_of_mem a hx)) (restoreLine ps a),
      restoreLine_preserve ps a pid (hall a (List.mem_cons_self a rest))]

theorem restoreAll_not_found (items : List OrderLine) (pid : Nat)
    (ps : List (Nat × Product)) (h : findProduct ps pid = none) :
    findProduct (items.foldl restoreLine ps) pid = none := by
  induction items generalizing ps with
  | nil => exact h
  | cons a rest ih =>
    rw [List.foldl_cons]
    by_cases hap : a.product = pid
    · rw [restoreLine_not_found ps a (hap ▸ h)]
      exact ih ps h
    · exact ih (restoreLine ps a) ((restoreLine_preserve ps a pid hap).trans h)

theorem restoreLine_product_stock (ps : List (Nat × Product)) (it : OrderLine)
    (p : Product) (hp : findProduct ps it.product = some p) :
    productStockOf (restoreLine ps it) it.product
      = some (p.stock + (it.quantity : Int)) := by
  unfold restoreLine
  rw [hp]
  dsimp only
  split
  · unfold productStockOf
    rw [findProduct_setProduct_self ps it.product _ p hp]
    rfl
  · split
    · unfold productStockOf
      rw [findProduct_setProduct_self ps it.product _ p hp]
      rfl
    · unfold productStockOf
      rw [findProduct_setProduct_self ps it.product _ p hp]
      rfl

theorem restoreLine_variant_stock (ps : List (Nat × Product)) (it : OrderLine)
    (p : Product) (vid : Nat) (v : Variant)
    (hp : findProduct ps it.product = some p) (hv : it.variantId = some vid)
    (hvv : variantById p.variants vid = some v) :
    variantStockOf (restoreLine ps it) it.product vid
      = some (v.stock + (it.quantity : Int)) := by
  unfold restoreLine
  rw [hp]
  dsimp only
  rw [hv]
  dsimp only
  rw [hvv]
  dsimp only
  rw [variantStockOf_eq, findProduct_setProduct_self ps it.product _ p hp,
    Option.some_bind]
  dsimp only
  rw [variantById_setVariant_self p.variants vid
    { v with stock := v.stock + (it.quantity : Int) } v
    (variantById_vid p.variants vid v hvv) hvv]
  rfl

theorem restoreAll_mem (items : List OrderLine) (it : OrderLine)
    (hmem : it ∈ items)
    (hpair : items.Pairwise (fun a b => a.product ≠ b.product))
    (ps : List (Nat × Product)) (p : Product)
    (hp : findProduct ps it.product = some p) :
    productStockOf (items.foldl restoreLine ps) it.product
      = some (p.stock + (it.quantity : Int)) ∧
    (∀ vid v, it.variantId = some vid → variantById p.variants vid = some v →
      variantStockOf (items.foldl restoreLine ps) it.product vid
        = some (v.stock + (it.quantity : Int))) := by
  induction items generalizing ps with
  | nil => cases hmem
  | cons a rest ih =>
    rcases List.mem_cons.mp hmem with rfl | hmem'
    · have hall : ∀ x ∈ rest, x.product ≠ it.product := fun x hx =>
        Ne.symm ((List.pairwise_cons.mp hpair).1 x hx)
      rw [List.foldl_cons]
      have hpres := restoreAll_preserve rest it.product hall (restoreLine ps it)
      constructor
      · unfold productStockOf
        rw [hpres]
        exact restoreLine_product_stock ps it p hp
      · intro vid v hv hvv
        rw [variantStockOf_eq, hpres, ← variantStockOf_eq]
        exact restoreLine_variant_stock ps it p vid v hp hv hvv
    · rw [List.foldl_cons]
      have hne : a.product ≠ it.product := (List.pairwise_cons.mp hpair).1 it hmem'
      have hp' : findProduct (restoreLine ps a) it.product = some p := by
        rw [restoreLine_preserve ps a it.product hne]
        exact hp
      exact ih hmem' (List.pairwise_cons.mp hpair).2 (restoreLine ps a) hp'

theorem cancelOrder_reject (σ : StoreState) (actorId : Nat) (admin : Bool)
    (oid : Nat) (order : OrderRec)
    (ho : lookupOrder σ.orders oid = some order)
    (hauth : admin = true ∨ order.user = actorId)
    (hst : order.status ∈ cancelBlockedStatuses) :
    cancelOrder σ actorId admin oid = (.error .cannotCancelAtStage, σ) := by
  unfold cancelOrder
  rw [ho]
  dsimp only
  rw [if_neg (by rcases hauth with h | h <;> simp [h]), if_pos hst]

theorem cancelOrder_accept (σ : StoreState) (actorId : Nat) (admin : Bool)
    (oid : Nat) (order : OrderRec)
    (ho : lookupOrder σ.orders oid = some order)
    (hauth : admin = true ∨ order.user = actorId)
    (hst : order.status ∉ cancelBlockedStatuses) :
    cancelOrder σ actorId admin oid
      = (.ok { order with status := .cancelled },
         { σ with products := order.items.foldl restoreLine σ.products,
                  orders := setOrder σ.orders oid
                    { order with status := .cancelled } }) := by
  unfold cancelOrder
  rw [ho]
  dsimp only
  rw [if_neg (by rcases hauth with h | h <;> simp [h]), if_neg hst]

theorem lineView_price (ps : List (Nat × Product)) (it : CartLine)
    (p : Product) (st : Int) (pr : ℚ) (h : lineView ps it = .ok (p, st, pr)) :
    findProduct ps it.productId = some p ∧
    ((it.variantId = none ∧ pr = baseSnapshotPrice p it) ∨
     (∃ vid v, it.variantId = some vid ∧ variantById p.variants vid = some v ∧
        pr = jsOr v.price (baseSnapshotPrice p it))) := by
  unfold lineView at h
  split at h
  · simp at h
  rename_i product hp
  split at h
  · rename_i hv
    simp only [Except.ok.injEq, Prod.mk.injEq] at h
    obtain ⟨h1, _, h3⟩ := h
    subst h1
    exact ⟨hp, Or.inl ⟨hv, h3.symm⟩⟩
  · rename_i vid hv
    split at h
    · simp at h
    rename_i variant hvv
    simp only [Except.ok.injEq, Prod.mk.injEq] at h
    obtain ⟨h1, _, h3⟩ := h
    subst h1
    exact ⟨hp, Or.inr ⟨vid, variant, hv, hvv, h3.symm⟩⟩

theorem buildOrderItems_forall2 (ps : List (Nat × Product))
    (lines : List CartLine) (items : List OrderLine)
    (h : buildOrderItems ps lines = .ok items) :
    List.Forall₂ (fun (it : CartLine) (ol : OrderLine) =>
      ol.product = it.productId ∧ ol.quantity = it.quantity ∧
      ol.variantId = it.variantId ∧
      ∃ p st, lineView ps it = .ok (p, st, ol.price) ∧
        ol.lineTotal = round2 (ol.price * (it.quantity : ℚ))) lines items := by
  induction lines generalizing items with
  | nil =>
    unfold buildOrderItems at h
    injection h with h
    subst h
    exact List.Forall₂.nil
  | cons l rest ih =>
    unfold buildOrderItems at h
    split at h
    · simp at h
    rename_i product currentStock snapshotPrice hlv
    split at h
    · simp at h
    split at h
    · simp at h
    rename_i tail htail
    injection h with h
    subst h
    exact List.Forall₂.cons
      ⟨rfl, rfl, rfl, product, currentStock, hlv, rfl⟩ (ih tail htail)

theorem findOtp_saveOtp (s : OtpStore) (email purpose : String) (d doc : OtpRec)
    (h : findOtp s email purpose = some doc) :
    findOtp (saveOtp s email purpose d) email purpose = some d := by
  induction s with
  | nil => simp [findOtp] at h
  | cons e rest ih =>
    by_cases hk : e.1 = (email, purpose)
    · simp [findOtp, saveOtp, hk]
    · simp [findOtp, saveOtp, hk] at h ⊢
      exact ih h

theorem findOtp_deleteMany (s : OtpStore) (email purpose : String) :
    findOtp (deleteManyOtp s email purpose) email purpose = none := by
  induction s with
  | nil => rfl
  | cons e rest ih =>
    by_cases hk : e.1 = (email, purpose)
    · simp [deleteManyOtp, hk]
      exact ih
    · simp [findOtp, deleteManyOtp, hk]
      exact ih

theorem countOtp_saveOtp (s : OtpStore) (email purpose : String) (d : OtpRec) :
    countOtp (saveOtp s email purpose d) email purpose
      = countOtp s email purpose := by
  induction s with
  | nil => rfl
  | cons e rest ih =>
    by_cases hk : e.1 = (email, purpose)
    · simp [countOtp, saveOtp, hk]
    · simp [countOtp, saveOtp, hk]
      exact ih

theorem countOtp_zero_findOtp (s : OtpStore) (email purpose : String)
    (h : countOtp s email purpose = 0) : findOtp s email purpose = none := by
  induction s with
  | nil => rfl
  | cons e rest ih =>
    by_cases hk : e.1 = (email, purpose)
    · simp [countOtp, hk] at h
    · simp [countOtp, hk] at h
      simp [findOtp, hk]
      exact ih h

theorem findOtp_deleteOne_unique (s : OtpStore) (email purpose : String)
    (h : countOtp s email purpose ≤ 1) :
    findOtp (deleteOneOtp s email purpose) email purpose = none := by
  induction s with
  | nil => rfl
  | cons e rest ih =>
    by_cases hk : e.1 = (email, purpose)
    · simp [deleteOneOtp, hk]
      simp [countOtp, hk] at h
      exact countOtp_zero_findOtp rest email purpose (by omega)
    · simp [deleteOneOtp, findOtp, hk]
      simp [countOtp, hk] at h
      exact ih h

theorem findOtp_retime (s : OtpStore) (t : Int) (email purpose : String) :
    findOtp (retimeOtp s t) email purpose
      = (findOtp s email purpose).map (fun d => { d with expiresAt := t }) := by
  induction s with
  | nil => rfl
  | cons e rest ih =>
    by_cases hk : e.1 = (email, purpose)
    · simp [findOtp, retimeOtp, hk]
    · simp [findOtp, retimeOtp, hk]
      simpa [retimeOtp] using ih

/-- Evaluation of placeOrder on the spec's scenario state. -/
theorem demo_place_eval :
    placeOrder demoState 1 true = (.ok demoPlacedOrder, demoPlacedState) := by
  norm_num [placeOrder, demoState, demoProduct, lookupCart, buildOrderItems,
    lineView, findProduct, baseSnapshotPrice, jsOr, deductAll, deductLine,
    setProduct, setCart, computeTotals, round2, Rat.floor_def',
    demoPlacedOrder, demoPlacedState]

/-! # Claim theorems -/

/-- Claim C3 (corrected): for every cart line whose requested quantity
exceeds its checked stock (variant stock for variant lines, product stock
otherwise), the whole placeOrder fails, with the InsufficientStock error
naming the product and the available quantity whenever every earlier line
validates; no order is created and the state is unchanged. After a success,
each line's checked stock has decreased by exactly the ordered quantity
PROVIDED the cart's lines are pairwise independent (distinct products, or
variant lines on distinct variants); the original claim's unconditional
per-line exactness fails when a no-variant line shares its product with
another line, because both decrements hit the same aggregate stock. -/
theorem placeOrder_stock_amended (σ : StoreState) (uid : Nat) (ok : Bool)
    (lines : List CartLine) (hc : lookupCart σ.carts uid = some lines) :
    (∀ it ∈ lines, ∀ st, lineStock σ.products it = some st →
      (it.quantity : Int) > st → ∃ e, placeOrder σ uid ok = (.error e, σ)) ∧
    (∀ pre it post, lines = pre ++ it :: post →
      (∀ l ∈ pre, validatesOk σ.products l) →
      ∀ p, findProduct σ.products it.productId = some p →
      ∀ st, lineStock σ.products it = some st → (it.quantity : Int) > st →
      placeOrder σ uid ok
        = (.error (.insufficientStock p.name it.quantity st), σ)) ∧
    (lines.Pairwise Indep →
      ∀ o σ', placeOrder σ uid ok = (.ok o, σ') →
      ∀ it ∈ lines, ∀ st, lineStock σ.products it = some st →
        lineStock σ'.products it = some (st - (it.quantity : Int))) := by
  refine ⟨?_, ?_, ?_⟩
  · intro it hit st hst hover
    have hne : lines ≠ [] := by
      intro hnil
      subst hnil
      cases hit
    cases hb : buildOrderItems σ.products lines with
    | error e => exact ⟨e, placeOrder_of_buildError σ uid ok lines e hc hne hb⟩
    | ok items =>
      obtain ⟨st', hst', hq⟩ :=
        buildOrderItems_validates σ.products lines items hb it hit
      rw [hst] at hst'
      injection hst' with hst'
      omega
  · intro pre it post hsplit hpre p hp st hst hover
    subst hsplit
    have hne : pre ++ it :: post ≠ [] := by simp
    exact placeOrder_of_buildError σ uid ok _ _ hc hne
      (buildOrderItems_overdraw σ.products pre it post hpre p hp st hst hover)
  · intro hpair o σ' h it hit st hst
    obtain ⟨lines', items, ps1, hc', hne', hb, hd, hok, ho, hσ⟩ :=
      placeOrder_ok_inv σ uid ok o σ' h
    rw [hc] at hc'
    injection hc' with hc'
    subst hc'
    obtain ⟨st0, hst0, hq⟩ :=
      buildOrderItems_validates σ.products lines items hb it hit
    rw [hst] at hst0
    injection hst0 with hst0
    subst hst0
    subst hσ
    exact deductAll_mem lines it hit hpair σ.products ps1 hd st hst hq

/-- Counterexample to C3 as frozen: in cex3State the plain line
(qty 2) is validated against aggregate stock 5, so per the claim the
aggregate should end at 3; the variant line of the same product also drains
the aggregate, which ends at 2. -/
theorem placeOrder_stock_counterexample :
    (placeOrder cex3State 1 true).1.toOption.isSome = true ∧
    lineStock cex3State.products
      { productId := 1, variantId := none, quantity := 2, price := 10 }
      = some 5 ∧
    lineStock (placeOrder cex3State 1 true).2.products
      { productId := 1, variantId := none, quantity := 2, price := 10 }
      = some 2 ∧
    (2 : Int) ≠ 5 - 2 := by
  refine ⟨?_, by decide, ?_, by decide⟩
  · norm_num [placeOrder, cex3State, cex3Product, lookupCart, buildOrderItems,
      lineView, findProduct, variantById, baseSnapshotPrice, jsOr, deductAll,
      deductLine, setProduct, setVariant, setCart, computeTotals, round2,
      Rat.floor_def', Except.toOption]
  · norm_num [placeOrder, cex3State, cex3Product, lookupCart, buildOrderItems,
      lineView, findProduct, variantById, baseSnapshotPrice, jsOr, deductAll,
      deductLine, setProduct, setVariant, setCart, computeTotals, round2,
      Rat.floor_def', lineStock]

/-- Witness for amended C3: an overdrawing cart fails with the named
InsufficientStock error and an untouched state, and the spec scenario's
line (qty 2 against stock 5) ends with stock exactly 3. -/
theorem placeOrder_stock_amended_witness :
    placeOrder demoOverState 1 true
      = (.error (.insufficientStock "alpha" 7 5), demoOverState) ∧
    lineStock demoPlacedState.products
      { productId := 1, variantId := none, quantity := 2, price := 100 }
      = some 3 := by
  constructor
  · exact (placeOrder_stock_amended demoOverState 1 true
      [{ productId := 1, variantId := none, quantity := 7, price := 100 }]
      rfl).2.1
      [] { productId := 1, variantId := none, quantity := 7, price := 100 } []
      rfl (fun l hl => absurd hl (List.not_mem_nil l))
      demoProduct (by decide) 5 (by decide) (by decide)
  · have h := (placeOrder_stock_amended demoState 1 true
      [{ productId := 1, variantId := none, quantity := 2, price := 100 }]
      rfl).2.2
      (List.pairwise_singleton _ _) demoPlacedOrder demoPlacedState
      demo_place_eval
      { productId := 1, variantId := none, quantity := 2, price := 100 }
      (List.mem_singleton_self _) 5 (by decide)
    norm_num at h
    exact h

/-- Claim C4 (corrected): placeOrder does NOT take the unit price from the
current catalog first. For every cart line, the unit price frozen into the
order line is the cart line's stored snapshot price when nonzero, falling
back to the product's current finalPrice, then its price, then 0
(`baseSnapshotPrice`); only for variant lines does the variant's current
nonzero price override supersede that value. So a non-variant line whose
nonzero snapshot differs from the current catalog price keeps the snapshot,
contrary to the claim. -/
theorem placeOrder_price_amended (σ : StoreState) (uid : Nat) (ok : Bool)
    (lines : List CartLine) (hc : lookupCart σ.carts uid = some lines)
    (o : OrderRec) (σ' : StoreState) (h : placeOrder σ uid ok = (.ok o, σ')) :
    List.Forall₂ (fun (it : CartLine) (ol : OrderLine) =>
      ol.product = it.productId ∧ ol.quantity = it.quantity ∧
      ∃ p, findProduct σ.products it.productId = some p ∧
        ((it.variantId = none ∧ ol.price = baseSnapshotPrice p it) ∨
         (∃ vid v, it.variantId = some vid ∧
            variantById p.variants vid = some v ∧
            ol.price = jsOr v.price (baseSnapshotPrice p it)))) lines o.items := by
  obtain ⟨lines', items, ps1, hc', hne', hb, hd, hok, ho, hσ⟩ :=
    placeOrder_ok_inv σ uid ok o σ' h
  rw [hc] at hc'
  injection hc' with hc'
  subst hc'
  have hitems : o.items = items := by rw [ho, computeTotals_items]
  rw [hitems]
  refine List.Forall₂.imp ?_ (buildOrderItems_forall2 σ.products lines items hb)
  intro it ol hrel
  obtain ⟨h1, h2, _, p, st, hlv, _⟩ := hrel
  obtain ⟨hp, hpr⟩ := lineView_price σ.products it p st ol.price hlv
  exact ⟨h1, h2, p, hp, hpr⟩

/-- Counterexample to C4 as frozen: in cex4State the cart snapshot price is
100 while the product's current catalog price (finalPrice) is 80; the
resulting order line carries 100, not the current catalog price. -/
theorem placeOrder_price_counterexample :
    (placeOrder cex4State 1 true).1.toOption.map
        (fun o => o.items.map (fun i => i.price)) = some [100] ∧
    cex4Product.finalPrice = 80 ∧ (100 : ℚ) ≠ 80 := by
  refine ⟨?_, by norm_num [cex4Product], by norm_num⟩
  norm_num [placeOrder, cex4State, cex4Product, lookupCart, buildOrderItems,
    lineView, findProduct, variantById, baseSnapshotPrice, jsOr, deductAll,
    deductLine, setProduct, setVariant, setCart, computeTotals, round2,
    Rat.floor_def', Except.toOption]

/-- Witness for amended C4 at the spec scenario: the single order line
keeps the cart's snapshot price 100 (which equals the catalog price there). -/
theorem placeOrder_price_amended_witness :
    List.Forall₂ (fun (it : CartLine) (ol : OrderLine) =>
      ol.product = it.productId ∧ ol.quantity = it.quantity ∧
      ∃ p, findProduct demoState.products it.productId = some p ∧
        ((it.variantId = none ∧ ol.price = baseSnapshotPrice p it) ∨
         (∃ vid v, it.variantId = some vid ∧
            variantById p.variants vid = some v ∧
            ol.price = jsOr v.price (baseSnapshotPrice p it))))
      [{ productId := 1, variantId := none, quantity := 2, price := 100 }]
      demoPlacedOrder.items :=
  placeOrder_price_amended demoState 1 true
    [{ productId := 1, variantId := none, quantity := 2, price := 100 }] rfl
    demoPlacedOrder demoPlacedState demo_place_eval

/-- Claim C5 (corrected): cancelOrder, invoked by the owner or an admin,
rejects the shipped / out_for_delivery / delivered / refunded stages leaving
stock and status unchanged; from any other status it succeeds and sets the
status to cancelled. Stock restoration is exact per line — product stock
(and variant stock, when the variant still exists) increases by exactly the
ordered quantity — PROVIDED the line's product still exists in the catalog
and the order's lines reference pairwise-distinct products; a line whose
product has been deleted is silently skipped (`if (!product) continue`), so
the original claim's unconditional restoration fails there. -/
theorem cancelOrder_amended (σ : StoreState) (actorId : Nat) (admin : Bool)
    (oid : Nat) (order : OrderRec)
    (ho : lookupOrder σ.orders oid = some order)
    (hauth : admin = true ∨ order.user = actorId) :
    (order.status ∈ cancelBlockedStatuses →
      cancelOrder σ actorId admin oid = (.error .cannotCancelAtStage, σ)) ∧
    (order.status ∉ cancelBlockedStatuses →
      (cancelOrder σ actorId admin oid).1
        = .ok { order with status := .cancelled } ∧
      lookupOrder (cancelOrder σ actorId admin oid).2.orders oid
        = some { order with status := .cancelled } ∧
      (order.items.Pairwise (fun a b => a.product ≠ b.product) →
        ∀ it ∈ order.items,
          (findProduct σ.products it.product = none →
            findProduct (cancelOrder σ actorId admin oid).2.products it.product
              = none) ∧
          (∀ p, findProduct σ.products it.product = some p →
            productStockOf (cancelOrder σ actorId admin oid).2.products
                it.product = some (p.stock + (it.quantity : Int)) ∧
            ∀ vid v, it.variantId = some vid →
              variantById p.variants vid = some v →
              variantStockOf (cancelOrder σ actorId admin oid).2.products
                it.product vid = some (v.stock + (it.quantity : Int))))) := by
  constructor
  · exact cancelOrder_reject σ actorId admin oid order ho hauth
  · intro hst
    rw [cancelOrder_accept σ actorId admin oid order ho hauth hst]
    refine ⟨rfl, ?_, ?_⟩
    · exact lookupOrder_setOrder_self σ.orders oid _ order ho
    · intro hpair it hit
      constructor
      · intro hnone
        exact restoreAll_not_found order.items it.product σ.products hnone
      · intro p hp
        exact ⟨(restoreAll_mem order.items it hit hpair σ.products p hp).1,
          fun vid v hv hvv =>
            (restoreAll_mem order.items it hit hpair σ.products p hp).2
              vid v hv hvv⟩

/-- Counterexample to C5 as frozen: cancelling an order whose only line
references the deleted product 42 succeeds and sets the status to
cancelled, but no product stock can be (or is) increased — the catalog
still has no product 42. -/
theorem cancelOrder_counterexample :
    (cancelOrder cex5State 7 false 1).1
      = .ok { cex5Order with status := .cancelled } ∧
    findProduct (cancelOrder cex5State 7 false 1).2.products 42 = none := by
  constructor <;> decide

/-- Witness for amended C5: a shipped order cannot be cancelled and the
state is untouched; a processing order cancels with product stock 10 + 3
and variant stock 4 + 3. -/
theorem cancelOrder_amended_witness :
    cancelOrder demoShippedState 7 false 1
      = (.error .cannotCancelAtStage, demoShippedState) ∧
    (cancelOrder demoCancelState 7 false 1).1
      = .ok { demoCancelOrder with status := .cancelled } ∧
    productStockOf (cancelOrder demoCancelState 7 false 1).2.products 9
      = some 13 ∧
    variantStockOf (cancelOrder demoCancelState 7 false 1).2.products 9 2
      = some 7 := by
  refine ⟨?_, ?_, ?_, ?_⟩
  · exact (cancelOrder_amended demoShippedState 7 false 1
      { demoCancelOrder with status := .shipped } rfl (Or.inr rfl)).1
      (by decide)
  · exact ((cancelOrder_amended demoCancelState 7 false 1 demoCancelOrder rfl
      (Or.inr rfl)).2 (by decide)).1
  · have h := ((((cancelOrder_amended demoCancelState 7 false 1 demoCancelOrder
      rfl (Or.inr rfl)).2 (by decide)).2.2 (List.pairwise_singleton _ _)
      { product := 9, productName := "gamma", variantId := some 2,
        quantity := 3, price := 10, lineTotal := 30 }
      (List.mem_singleton_self _)).2 demoCancelProduct (by decide)).1
    norm_num at h
    exact h
  · have h := ((((cancelOrder_amended demoCancelState 7 false 1 demoCancelOrder
      rfl (Or.inr rfl)).2 (by decide)).2.2 (List.pairwise_singleton _ _)
      { product := 9, productName := "gamma", variantId := some 2,
        quantity := 3, price := 10, lineTotal := 30 }
      (List.mem_singleton_self _)).2 demoCancelProduct (by decide)).2
      2 { vid := 2, stock := 4, price := 10 } rfl (by decide)
    norm_num at h
    exact h

theorem verifyOtpHelper_none (s : OtpStore) (email purpose otp : String)
    (h : findOtp s email purpose = none) :
    verifyOtpHelper s email purpose otp
      = ({ valid := false, attemptsLeft := 0, blocked := false }, s) := by
  simp [verifyOtpHelper, h]

/-- Claim C6 (corrected): the helper-based verification (admin login path,
verifyOtpHelper) behaves exactly as claimed: no record yields invalid and
not blocked; a mismatch increments and persists the attempts counter,
deleting the record and reporting blocked when it reaches MAX_ATTEMPTS = 5,
otherwise reporting invalid with attempts remaining; a match deletes the
record (single use), so a second submission of the same correct code fails.
The user-registration verify path (userVerifyOtp) deviates: on mismatch it
increments attempts but never deletes the record and never reports blocked,
however large the counter grows. -/
theorem verifyOtpHelper_amended (s : OtpStore) (email purpose otp : String) :
    (findOtp s email purpose = none →
      verifyOtpHelper s email purpose otp
        = ({ valid := false, attemptsLeft := 0, blocked := false }, s)) ∧
    (∀ doc, findOtp s email purpose = some doc → doc.hashedOtp ≠ otp →
      doc.attempts + 1 < MAX_ATTEMPTS →
      verifyOtpHelper s email purpose otp
        = ({ valid := false, attemptsLeft := MAX_ATTEMPTS - (doc.attempts + 1),
             blocked := false },
           saveOtp s email purpose { doc with attempts := doc.attempts + 1 }) ∧
      findOtp (verifyOtpHelper s email purpose otp).2 email purpose
        = some { doc with attempts := doc.attempts + 1 }) ∧
    (∀ doc, findOtp s email purpose = some doc → doc.hashedOtp ≠ otp →
      MAX_ATTEMPTS ≤ doc.attempts + 1 →
      (verifyOtpHelper s email purpose otp).1
        = { valid := false, attemptsLeft := 0, blocked := true } ∧
      (countOtp s email purpose ≤ 1 →
        findOtp (verifyOtpHelper s email purpose otp).2 email purpose = none)) ∧
    (∀ doc, findOtp s email purpose = some doc → doc.hashedOtp = otp →
      (verifyOtpHelper s email purpose otp).1
        = { valid := true, attemptsLeft := MAX_ATTEMPTS, blocked := false } ∧
      findOtp (verifyOtpHelper s email purpose otp).2 email purpose = none ∧
      (verifyOtpHelper (verifyOtpHelper s email purpose otp).2
          email purpose otp).1.valid = false) := by
  refine ⟨?_, ?_, ?_, ?_⟩
  · exact verifyOtpHelper_none s email purpose otp
  · intro doc hdoc hne hlt
    have hx : ¬ MAX_ATTEMPTS ≤ doc.attempts + 1 := by omega
    constructor
    · simp [verifyOtpHelper, hdoc, hne, hx]
    · simp only [verifyOtpHelper, hdoc]
      rw [if_neg hne]
      simp only [hx, if_false]
      exact findOtp_saveOtp s email purpose _ doc hdoc
  · intro doc hdoc hne hge
    constructor
    · simp [verifyOtpHelper, hdoc, hne, hge]
    · intro hcount
      simp only [verifyOtpHelper, hdoc]
      rw [if_neg hne]
      simp only [hge, if_true]
      exact findOtp_deleteOne_unique _ email purpose
        ((countOtp_saveOtp s email purpose _).trans_le hcount)
  · intro doc hdoc hmatch
    refine ⟨by simp [verifyOtpHelper, hdoc, hmatch], ?_, ?_⟩
    · simp only [verifyOtpHelper, hdoc]
      rw [if_pos hmatch]
      exact findOtp_deleteMany s email purpose
    · have h2 : findOtp (verifyOtpHelper s email purpose otp).2 email purpose
          = none := by
        simp only [verifyOtpHelper, hdoc]
        rw [if_pos hmatch]
        exact findOtp_deleteMany s email purpose
      rw [verifyOtpHelper_none _ email purpose otp h2]

/-- Counterexample to C6 as frozen: on the user-registration path a record
at 4 failed attempts receives a fifth wrong code; the claim demands the
record be deleted and the result be blocked, but the code keeps the record
(attempts = 5 = MAX_ATTEMPTS) and answers a plain invalid. -/
theorem userVerifyOtp_counterexample :
    (userVerifyOtp cex6Store true "u@x.com" "000000").1
      = UserVerifyResp.invalidOtp ∧
    findOtp (userVerifyOtp cex6Store true "u@x.com" "000000").2
        "u@x.com" "register"
      = some { hashedOtp := "111111", attempts := 5, resendCount := 0,
               expiresAt := 1000 } := by
  constructor <;> decide

/-- Witness for amended C6: the correct code verifies once, deletes the
record, and fails when submitted again. -/
theorem verifyOtpHelper_amended_witness :
    (verifyOtpHelper demoOtpStore "a@b.com" "login" "123456").1
      = { valid := true, attemptsLeft := 5, blocked := false } ∧
    findOtp (verifyOtpHelper demoOtpStore "a@b.com" "login" "123456").2
      "a@b.com" "login" = none ∧
    (verifyOtpHelper (verifyOtpHelper demoOtpStore "a@b.com" "login" "123456").2
        "a@b.com" "login" "123456").1.valid = false :=
  (verifyOtpHelper_amended demoOtpStore "a@b.com" "login" "123456").2.2.2
    { hashedOtp := "123456", attempts := 0, resendCount := 0, expiresAt := 1000 }
    (by decide) rfl

/-- Claim C7 (corrected): on the helper path (admin login), issuing or
resending with an existing record at attempts >= MAX_ATTEMPTS = 5 purges the
record, reports blocked, and stores no new code. The user-registration
resend path deviates: it unconditionally deletes all records for the key
and stores a fresh code, never reporting blocked, whatever the attempts
counter held. -/
theorem createOrResendOtp_amended (s : OtpStore) (email purpose code : String)
    (now : Int) :
    (∀ doc, findOtp s email purpose = some doc →
      MAX_ATTEMPTS ≤ doc.attempts →
      (createOrResendOtp s email purpose code now).1
        = { blocked := true, attemptsLeft := 0, resendsLeft := 0,
            otp := none } ∧
      (countOtp s email purpose ≤ 1 →
        findOtp (createOrResendOtp s email purpose code now).2 email purpose
          = none)) ∧
    ((userResendOtp s true false email code now).1 = UserResendResp.resent ∧
      findOtp (userResendOtp s true false email code now).2 email "register"
        = some { hashedOtp := code, attempts := 0, resendCount := 0,
                 expiresAt := now + OTP_LIFETIME_MS }) := by
  constructor
  · intro doc hdoc hge
    constructor
    · simp [createOrResendOtp, hdoc, hge]
    · intro hcount
      simp only [createOrResendOtp, hdoc]
      rw [if_pos hge]
      exact findOtp_deleteOne_unique s email purpose hcount
  · exact ⟨by simp [userResendOtp], by simp [userResendOtp, insertOtp, findOtp]⟩

/-- Counterexample to C7 as frozen: the register record sits at
attempts = 5 = MAX_ATTEMPTS, yet the user resend path happily stores a
fresh code and reports success instead of blocked. -/
theorem userResendOtp_counterexample :
    findOtp cex7Store "u@x.com" "register"
      = some { hashedOtp := "111111", attempts := 5, resendCount := 0,
               expiresAt := 1000 } ∧
    (userResendOtp cex7Store true false "u@x.com" "222222" 0).1
      = UserResendResp.resent ∧
    findOtp (userResendOtp cex7Store true false "u@x.com" "222222" 0).2
        "u@x.com" "register"
      = some { hashedOtp := "222222", attempts := 0, resendCount := 0,
               expiresAt := 300000 } := by
  refine ⟨by decide, by decide, by decide⟩

/-- Witness for amended C7: a blocked record is purged with no new code on
the helper path. -/
theorem createOrResendOtp_amended_witness :
    (createOrResendOtp cex7Store "u@x.com" "register" "999999" 0).1
      = { blocked := true, attemptsLeft := 0, resendsLeft := 0, otp := none } ∧
    findOtp (createOrResendOtp cex7Store "u@x.com" "register" "999999" 0).2
      "u@x.com" "register" = none := by
  have h := (createOrResendOtp_amended cex7Store "u@x.com" "register"
    "999999" 0).1
    { hashedOtp := "111111", attempts := 5, resendCount := 0, expiresAt := 1000 }
    (by decide) (by decide)
  exact ⟨h.1, h.2 (by decide)⟩

/-- Claim C8 (corrected): neither OTP verification path consults the stored
expiry timestamp at all — the verification RESULT is invariant under
rewriting every stored expiresAt, and a present record whose hash matches
verifies as valid regardless of how far in the past its expiresAt lies.
Expiry is enforced only by the TTL index's garbage collection of the
document, contrary to the claim that verification compares expiresAt
against the current time. -/
theorem otpExpiry_amended (s : OtpStore) (email purpose otp : String)
    (t : Int) :
    ((verifyOtpHelper (retimeOtp s t) email purpose otp).1
      = (verifyOtpHelper s email purpose otp).1) ∧
    ((userVerifyOtp (retimeOtp s t) true email otp).1
      = (userVerifyOtp s true email otp).1) ∧
    (∀ doc, findOtp s email purpose = some doc → doc.hashedOtp = otp →
      (verifyOtpHelper s email purpose otp).1.valid = true) := by
  refine ⟨?_, ?_, ?_⟩
  · cases hf : findOtp s email purpose with
    | none => simp [verifyOtpHelper, findOtp_retime, hf]
    | some doc =>
      by_cases hmatch : doc.hashedOtp = otp
      · simp [verifyOtpHelper, findOtp_retime, hf, hmatch]
      · by_cases hblock : doc.attempts + 1 ≥ MAX_ATTEMPTS <;>
          simp [verifyOtpHelper, findOtp_retime, hf, hmatch, hblock]
  · cases hf : findOtp s email "register" with
    | none => simp [userVerifyOtp, findOtp_retime, hf]
    | some doc =>
      by_cases hmatch : doc.hashedOtp = otp <;>
        simp [userVerifyOtp, findOtp_retime, hf, hmatch]
  · intro doc hdoc hmatch
    simp [verifyOtpHelper, hdoc, hmatch]

/-- Counterexample to C8 as frozen: the stored record expired at time 0,
the current time is 1, the submitted code matches — and verification still
returns valid, because no code path reads expiresAt. -/
theorem otpExpiry_counterexample :
    (findOtp cex8Store "a@b.com" "login").map (fun d => d.expiresAt)
      = some 0 ∧
    (0 : Int) < 1 ∧
    (verifyOtpHelper cex8Store "a@b.com" "login" "123456").1.valid = true := by
  refine ⟨by decide, by decide, by decide⟩

/-- Witness for amended C8: rewriting the stored expiry to 0 does not
change the verification result, and the matching code verifies valid. -/
theorem otpExpiry_amended_witness :
    ((verifyOtpHelper (retimeOtp demoOtpStore 0) "a@b.com" "login" "999999").1
      = (verifyOtpHelper demoOtpStore "a@b.com" "login" "999999").1) ∧
    (verifyOtpHelper demoOtpStore "a@b.com" "login" "123456").1.valid
      = true := by
  refine ⟨(otpExpiry_amended demoOtpStore "a@b.com" "login" "999999" 0).1, ?_⟩
  exact (otpExpiry_amended demoOtpStore "a@b.com" "login" "123456" 0).2.2
    { hashedOtp := "123456", attempts := 0, resendCount := 0,
      expiresAt := 1000 } (by decide) rfl

theorem oversellFirst_eval (s : Int) (q1 q2 : Nat) (h1 : (q1 : Int) ≤ s) :
    (oversellFirst s q1 q2).2.products
      = [(1, { name := "tee", price := 10, finalPrice := 10, stock := s - q1,
               variants := [{ vid := 1, stock := s - q1, price := 10 }] })] ∧
    (oversellFirst s q1 q2).2.carts
      = [(1, []), (2, [{ productId := 1, variantId := some 1, quantity := q2,
                         price := 10 }])] ∧
    (oversellFirst s q1 q2).1.toOption.isSome = true := by
  have hngt : ¬ ((q1 : Int) > s) := not_lt.mpr h1
  have hm : max 0 (s - (q1 : Int)) = s - q1 := by omega
  refine ⟨?_, ?_, ?_⟩ <;>
    norm_num [oversellFirst, placeOrder, contentionState, contentionProduct,
      lookupCart, buildOrderItems, lineView, findProduct, variantById,
      baseSnapshotPrice, jsOr, deductAll, deductLine, setProduct, setVariant,
      setCart, hngt, hm, Except.toOption]

theorem oversellSecond_eval (s : Int) (q1 q2 : Nat) (h1 : (q1 : Int) ≤ s)
    (hsum : s < (q1 : Int) + (q2 : Int)) :
    oversellSecond s q1 q2
      = (.error (.insufficientStock "tee" q2 (s - q1)),
         (oversellFirst s q1 q2).2) := by
  obtain ⟨hp, hc, _⟩ := oversellFirst_eval s q1 q2 h1
  have hgt : (q2 : Int) > s - q1 := by omega
  unfold oversellSecond placeOrder
  rw [hc, hp]
  norm_num [lookupCart, buildOrderItems, lineView, findProduct, variantById,
    baseSnapshotPrice, jsOr, hgt]

/-- Claim C9 (confirmed): two placeOrder transactions contending on the
same variant, with individually satisfiable quantities whose sum exceeds
the stock, are serialized by the transactional store; in either
serialization order the first call succeeds, the loser fails with
InsufficientStock (naming the product and the remaining stock) and leaves
the state exactly as the winner committed it, and the final variant and
aggregate stocks equal the initial stock minus only the winner's quantity.
Quantifying over q1 and q2 covers both serialization orders. -/
theorem placeOrder_oversell (s : Int) (q1 q2 : Nat)
    (h1 : (q1 : Int) ≤ s) (_h2 : (q2 : Int) ≤ s)
    (hsum : s < (q1 : Int) + (q2 : Int)) :
    (oversellFirst s q1 q2).1.toOption.isSome = true ∧
    (oversellSecond s q1 q2).1
      = .error (.insufficientStock "tee" q2 (s - q1)) ∧
    (oversellSecond s q1 q2).2 = (oversellFirst s q1 q2).2 ∧
    variantStockOf (oversellFirst s q1 q2).2.products 1 1 = some (s - q1) ∧
    productStockOf (oversellFirst s q1 q2).2.products 1 = some (s - q1) := by
  obtain ⟨hp, hc, hok⟩ := oversellFirst_eval s q1 q2 h1
  have hsec := oversellSecond_eval s q1 q2 h1 hsum
  refine ⟨hok, by rw [hsec], by rw [hsec], ?_, ?_⟩
  · rw [variantStockOf_eq, hp]
    norm_num [findProduct, variantById]
  · rw [hp]
    norm_num [productStockOf, findProduct]

/-- Witness for C9 at the spec's scenario: two calls each requesting 3 of a
variant with stock 4; the first succeeds, the second gets
InsufficientStock with 1 available, and stock ends at 1. -/
theorem placeOrder_oversell_witness :
    (oversellFirst 4 3 3).1.toOption.isSome = true ∧
    (oversellSecond 4 3 3).1 = .error (.insufficientStock "tee" 3 1) ∧
    (oversellSecond 4 3 3).2 = (oversellFirst 4 3 3).2 ∧
    variantStockOf (oversellFirst 4 3 3).2.products 1 1 = some 1 ∧
    productStockOf (oversellFirst 4 3 3).2.products 1 = some 1 := by
  have h := placeOrder_oversell 4 3 3 (by norm_num) (by norm_num) (by norm_num)
  norm_num at h
  exact h

theorem findProduct_mem (ps : List (Nat × Product)) (pid : Nat) (p : Product)
    (h : findProduct ps pid = some p) : ∃ k, (k, p) ∈ ps := by
  induction ps with
  | nil => simp [findProduct] at h
  | cons e rest ih =>
    by_cases hk : e.1 = pid
    · simp [findProduct, hk] at h
      exact ⟨e.1, by simp [← h]⟩
    · simp [findProduct, hk] at h
      obtain ⟨k, hmem⟩ := ih h
      exact ⟨k, List.mem_cons_of_mem e hmem⟩

theorem mem_setProduct (ps : List (Nat × Product)) (pid : Nat) (p : Product)
    (e : Nat × Product) (h : e ∈ setProduct ps pid p) : e ∈ ps ∨ e.2 = p := by
  induction ps with
  | nil => simp [setProduct] at h
  | cons e0 rest ih =>
    simp only [setProduct, List.mem_cons] at h
    rcases h with h | h
    · by_cases hk : e0.1 = pid
      · rw [if_pos hk] at h
        exact Or.inr (by rw [h])
      · rw [if_neg hk] at h
        subst h
        exact Or.inl (List.mem_cons_self e rest)
    · rcases ih h with h' | h'
      · exact Or.inl (List.mem_cons_of_mem e0 h')
      · exact Or.inr h'

theorem mem_setVariant (vs : List Variant) (vid : Nat) (v w : Variant)
    (h : w ∈ setVariant vs vid v) : w ∈ vs ∨ w = v := by
  induction vs with
  | nil => simp [setVariant] at h
  | cons u rest ih =>
    simp only [setVariant, List.mem_cons] at h
    rcases h with h | h
    · by_cases hk : u.vid = vid
      · rw [if_pos hk] at h
        exact Or.inr h
      · rw [if_neg hk] at h
        subst h
        exact Or.inl (List.mem_cons_self w rest)
    · rcases ih h with h' | h'
      · exact Or.inl (List.mem_cons_of_mem u h')
      · exact Or.inr h'

theorem deductLine_nonneg (ps ps1 : List (Nat × Product)) (it : CartLine)
    (h : deductLine ps it = some ps1) (hn : catalogNonneg ps) :
    catalogNonneg ps1 := by
  unfold deductLine at h
  split at h
  · simp at h
  rename_i product hp
  obtain ⟨k, hkmem⟩ := findProduct_mem ps it.productId product hp
  have hprod := hn (k, product) hkmem
  split at h
  · injection h with h
    subst h
    intro e he
    rcases mem_setProduct ps it.productId _ e he with he' | he'
    · exact hn e he'
    · rw [he']
      exact ⟨le_max_left 0 _, fun v hv => (hprod.2 v hv)⟩
  · rename_i vid hv
    split at h
    · simp at h
    rename_i variant hvv
    injection h with h
    subst h
    intro e he
    rcases mem_setProduct ps it.productId _ e he with he' | he'
    · exact hn e he'
    · rw [he']
      refine ⟨le_max_left 0 _, fun v hv => ?_⟩
      rcases mem_setVariant product.variants vid _ v hv with hv' | hv'
      · exact hprod.2 v hv'
      · rw [hv']
        exact le_max_left 0 _

theorem deductAll_nonneg (lines : List CartLine)
    (ps ps1 : List (Nat × Product)) (h : deductAll ps lines = some ps1)
    (hn : catalogNonneg ps) : catalogNonneg ps1 := by
  induction lines generalizing ps with
  | nil =>
    simp only [deductAll, Option.some.injEq] at h
    subst h
    exact hn
  | cons l rest ih =>
    unfold deductAll at h
    split at h
    · simp at h
    rename_i ps0 hdl
    exact ih ps0 h (deductLine_nonneg ps ps0 l hdl hn)

/-- Claim C10 (confirmed): stock never becomes negative across placeOrder —
every decrement is clamped at zero at both the variant and the product
level — and in particular a variant line whose quantity exceeds the
aggregate product-level stock (only the variant's stock was validated)
still succeeds, leaving the aggregate clamped at 0 (decremented by less
than the ordered quantity) and the variant stock at vs - q. -/
theorem placeOrder_stock_clamped (σ : StoreState) (uid : Nat) (ok : Bool)
    (h : catalogNonneg σ.products) :
    catalogNonneg (placeOrder σ uid ok).2.products ∧
    (∀ ps0 vs : Int, ∀ q : Nat, (q : Int) ≤ vs → ps0 < (q : Int) →
      (placeOrder (clampState ps0 vs q) 1 true).1.toOption.isSome = true ∧
      productStockOf (placeOrder (clampState ps0 vs q) 1 true).2.products 1
        = some 0 ∧
      variantStockOf (placeOrder (clampState ps0 vs q) 1 true).2.products 1 1
        = some (vs - q)) := by
  constructor
  · cases hr : (placeOrder σ uid ok).1 with
    | error e =>
      have heq : placeOrder σ uid ok = (.error e, (placeOrder σ uid ok).2) :=
        Prod.ext hr rfl
      rw [placeOrder_error_state σ uid ok e (placeOrder σ uid ok).2 heq]
      exact h
    | ok o =>
      have heq : placeOrder σ uid ok = (.ok o, (placeOrder σ uid ok).2) :=
        Prod.ext hr rfl
      obtain ⟨lines, items, ps1, _, _, _, hd, _, _, hσ⟩ :=
        placeOrder_ok_inv σ uid ok o (placeOrder σ uid ok).2 heq
      rw [hσ]
      exact deductAll_nonneg lines σ.products ps1 hd h
  · intro ps0 vs q hq hover
    have hngt : ¬ ((q : Int) > vs) := not_lt.mpr hq
    have hm1 : max 0 (vs - (q : Int)) = vs - q := by omega
    have hm2 : max 0 (ps0 - (q : Int)) = 0 := by omega
    refine ⟨?_, ?_, ?_⟩ <;>
      norm_num [placeOrder, clampState, lookupCart, buildOrderItems, lineView,
        findProduct, variantById, baseSnapshotPrice, jsOr, deductAll,
        deductLine, setProduct, setVariant, setCart, productStockOf,
        variantStockOf, hngt, hm1, hm2, Except.toOption]

/-- Witness for C10: the scenario catalog stays nonnegative, and a variant
line of qty 4 against aggregate stock 2 (variant stock 5) succeeds with the
aggregate clamped to 0 and the variant left at 1. -/
theorem placeOrder_stock_clamped_witness :
    catalogNonneg (placeOrder demoState 1 true).2.products ∧
    productStockOf (placeOrder (clampState 2 5 4) 1 true).2.products 1
      = some 0 ∧
    variantStockOf (placeOrder (clampState 2 5 4) 1 true).2.products 1 1
      = some 1 := by
  have h := placeOrder_stock_clamped demoState 1 true (by
    intro e he
    simp only [demoState, List.mem_singleton] at he
    subst he
    refine ⟨by norm_num [demoProduct], fun v hv => ?_⟩
    simp [demoProduct] at hv)
  have h2 := h.2 2 5 4 (by norm_num) (by norm_num)
  refine ⟨h.1, h2.2.1, ?_⟩
  have h3 := h2.2.2
  norm_num at h3
  exact h3

/-- Claim C1 (confirmed): placeOrder is all-or-nothing. If it succeeds, the
new order is appended to the order store and the user's cart has zero lines;
if it fails for any reason (empty cart, missing product or variant,
insufficient stock, or persistence error), the returned state is exactly the
pre-call state, so the cart's lines and every product-level and
variant-level stock are untouched. -/
theorem placeOrder_all_or_nothing (σ : StoreState) (uid : Nat) (ok : Bool) :
    (∀ e σ', placeOrder σ uid ok = (.error e, σ') → σ' = σ) ∧
    (∀ o σ', placeOrder σ uid ok = (.ok o, σ') →
      σ'.orders = σ.orders ++ [(σ.nextOrderId, o)] ∧
      lookupCart σ'.carts uid = some []) := by
  refine ⟨fun e σ' h => placeOrder_error_state σ uid ok e σ' h,
    fun o σ' h => ?_⟩
  obtain ⟨lines, items, ps1, hc, _, _, _, _, _, hσ⟩ :=
    placeOrder_ok_inv σ uid ok o σ' h
  subst hσ
  exact ⟨rfl, lookupCart_setCart_self _ _ _ _ hc⟩

/-- Witness for C1: the spec's scenario cart (one line, qty 2, price 100,
stock 5) placed successfully appends the order and empties the cart. -/
theorem placeOrder_all_or_nothing_witness :
    demoPlacedState.orders = demoState.orders ++ [(demoState.nextOrderId, demoPlacedOrder)] ∧
    lookupCart demoPlacedState.carts 1 = some [] :=
  (placeOrder_all_or_nothing demoState 1 true).2 demoPlacedOrder demoPlacedState
    demo_place_eval

/-- Claim C2 (confirmed): every successfully placed order satisfies
subTotal = sum of line totals; tax = 5 percent of subTotal rounded to two
decimals; shipping = flat 50, waived (0) when subTotal exceeds 2000;
discount = 0; total = round2(subTotal + tax + shipping - discount).
(placeOrder always constructs the order with tax, shipping and discount
initialized to 0, so computeTotals always applies the defaults.) -/
theorem placeOrder_totals_invariant (σ : StoreState) (uid : Nat) (ok : Bool)
    (o : OrderRec) (σ' : StoreState) (h : placeOrder σ uid ok = (.ok o, σ')) :
    o.subTotal = (o.items.map (fun it => it.lineTotal)).sum ∧
    o.tax = round2 (o.subTotal * (5/100)) ∧
    o.shipping = (if o.subTotal > 2000 then (0:ℚ) else 50) ∧
    o.discount = 0 ∧
    o.total = round2 (o.subTotal + o.tax + o.shipping - o.discount) := by
  obtain ⟨lines, items, ps1, _, _, _, _, _, ho, _⟩ :=
    placeOrder_ok_inv σ uid ok o σ' h
  subst ho
  simp [computeTotals, foldl_lineTotal_sum]

/-- Witness for C2 at the spec's scenario: subtotal 200, tax 10,
shipping 50, total 260. -/
theorem placeOrder_totals_invariant_witness :
    demoPlacedOrder.subTotal
        = (demoPlacedOrder.items.map (fun it => it.lineTotal)).sum ∧
    demoPlacedOrder.tax = round2 (demoPlacedOrder.subTotal * (5/100)) ∧
    demoPlacedOrder.shipping
        = (if demoPlacedOrder.subTotal > 2000 then (0:ℚ) else 50) ∧
    demoPlacedOrder.discount = 0 ∧
    demoPlacedOrder.total = round2 (demoPlacedOrder.subTotal
        + demoPlacedOrder.tax + demoPlacedOrder.shipping - demoPlacedOrder.discount) :=
  placeOrder_totals_invariant demoState 1 true demoPlacedOrder demoPlacedState
    demo_place_eval

end ShuVastra
